import Mathlib

/-!
Verification development for the btree-freemap crate (src/lib.rs, src/btree.rs).

Shallow embedding conventions:
- The generic scalar `T : Address` is instantiated at `Nat` (the `Address`
  contract asks for a total order, a zero constant and closed add/sub, all of
  which `Nat` provides for the inputs exercised here).
- Code that executes `panic!` (the unimplemented TODO stubs in
  `FreeRegions::pop`/`push`, `FreeMap::free`, the leaf case of
  `free_range_offset_in`, and out-of-bounds/underflowing index arithmetic) is
  modelled as a distinguished `panic` outcome.
- The b-tree of the external `linear_btree` crate is modelled structurally:
  an internal node has a first child followed by branches, each branch being a
  separator item and the child situated after it; node ids of the slab-backed
  original become direct subtrees.  `binary_search_min`, an external
  collaborator the spec assumes correct, is modelled from its contract
  (predecessor search on the sorted separator keys).
- The search functions return the chosen range; the bucket/tree removal and
  rebalancing machinery (`node.take`, `remove_rightmost_leaf_of`,
  `rebalance_child`) mutates the tree after the returned range is already
  fixed, and no claim below observes the post-search tree, so the model keeps
  the search outcome pure.
-/

/-- Allocation strategies of src/lib.rs (`AllocationStrategy`). -/
inductive AllocationStrategy where
  | firstFit
  | worstFit
  | bestFit
deriving DecidableEq, Repr

/-- An item of the size-keyed b-tree map: `key` is a free-region length and
`value` the bucket of start offsets of free regions having that length
(`BTreeMap<T, Vec<T>>` in src/btree.rs). -/
structure Item where
  key : Nat
  value : List Nat
deriving DecidableEq, Repr

mutual
/-- A node of the `linear_btree` map used by src/btree.rs: a leaf holds items,
an internal node holds a first child and a list of branches. -/
inductive BNode where
  | leaf (items : List Item)
  | internal (first : BNode) (branches : Branches)

/-- The branch list of an internal node: each branch carries a separator item
and the child placed just after that separator. -/
inductive Branches where
  | nil
  | cons (item : Item) (child : BNode) (rest : Branches)
end

/-- Separator keys of a branch list, in order. -/
def Branches.keys : Branches → List Nat
  | .nil => []
  | .cons item _ rest => item.key :: rest.keys

/-- Number of branches (equals the number of separator items of the node). -/
def Branches.length : Branches → Nat
  | .nil => 0
  | .cons _ _ rest => rest.length + 1

/-- Separator item at the given branch index, as `item_at_mut_opt` reads it on
an internal node. -/
def Branches.getItem : Branches → Nat → Option Item
  | .nil, _ => none
  | .cons item _ _, 0 => some item
  | .cons _ _ rest, i + 1 => rest.getItem i

/-- Test for the empty branch list. -/
def Branches.isNil : Branches → Bool
  | .nil => true
  | .cons _ _ _ => false

/-- Modelled from the spec: `binary_search_min` of the external `linear_btree`
crate, an assumed-correct collaborator (spec §6: predecessor search).  On a
strictly sorted key list it returns the greatest index whose key is at most
the query, and `none` when every key exceeds the query. -/
def binary_search_min : List Nat → Nat → Option Nat
  | [], _ => none
  | k :: ks, len =>
    if k ≤ len then
      match binary_search_min ks len with
      | some j => some (j + 1)
      | none => some 0
    else
      none

/-- Outcome of `free_range_offset_in` (src/btree.rs lines 115-165):
`take i` is `Ok(Some(i))` (take the separator item at offset `i` of this
node), `noneFound` is `Ok(None)`, `descend i` is `Err((i, child))` (recurse
into the child stored after separator `i`), and `panic` covers the
unimplemented leaf case plus the index underflow WorstFit performs on an
internal node with no branches. -/
inductive FRO where
  | take (offset : Nat)
  | noneFound
  | descend (childIndex : Nat)
  | panic
deriving DecidableEq, Repr

/-- Model of `free_range_offset_in` (src/btree.rs).  FirstFit: predecessor
search on the separator keys, take the exact separator or its successor
separator, descending after the last separator only; WorstFit: always descend
after the last separator; BestFit: take the exact separator, otherwise descend
after the predecessor separator, and take separator 0 when every separator
key exceeds the request. -/
def free_range_offset_in (node : BNode) (len : Nat) (strategy : AllocationStrategy) : FRO :=
  match node with
  | .internal _ branches =>
    let keys := branches.keys
    match strategy with
    | .firstFit =>
      match binary_search_min keys len with
      | some i =>
        if keys.getD i 0 = len then
          .take i
        else if i + 1 < keys.length then
          .take (i + 1)
        else
          .descend i
      | none => .take 0
    | .worstFit =>
      match branches with
      | .nil => .panic
      | .cons _ _ _ => .descend (branches.length - 1)
    | .bestFit =>
      match binary_search_min keys len with
      | some i =>
        if keys.getD i 0 = len then
          .take i
        else
          .descend i
      | none => .take 0
  | .leaf _ => .panic

/-- Outcome of the free-range search: `found len start` stands for the range
`start..start+len` returned by `find_free_range_in`, `notFound` for `None`,
and `panic` for reaching one of the unimplemented stubs. -/
inductive SearchOutcome where
  | found (len start : Nat)
  | notFound
  | panic
deriving DecidableEq, Repr

/-- Model of `take_from` (src/btree.rs lines 71-113): read the item at the
offset (`None` makes the search return `None`), pop the last start offset of
its bucket (`Vec::pop`; popping an empty bucket is `Option::unwrap` on `None`,
a panic) and return the range `start..start+key`.  The removal and rebalancing
that follow when the bucket empties do not affect the returned range. -/
def take_from (node : BNode) (offset : Nat) : SearchOutcome :=
  match node with
  | .internal _ branches =>
    match branches.getItem offset with
    | none => .notFound
    | some item =>
      match item.value.getLast? with
      | none => .panic
      | some start => .found item.key start
  | .leaf items =>
    match items.get? offset with
    | none => .notFound
    | some item =>
      match item.value.getLast? with
      | none => .panic
      | some start => .found item.key start

mutual
/-- Model of `find_free_range_in` (src/btree.rs lines 47-67): consult
`free_range_offset_in` at the current node; on `take` call `take_from`, on
`descend` recurse into the designated child, and if that child reports
not-found fall back to taking the predecessor separator under BestFit. -/
def find_free_range_in (node : BNode) (len : Nat) (strategy : AllocationStrategy) : SearchOutcome :=
  match free_range_offset_in node len strategy with
  | .noneFound => .notFound
  | .take offset => take_from node offset
  | .panic => .panic
  | .descend childIndex =>
    match node with
    | .leaf _ => .panic
    | .internal _ branches =>
      match descend_into branches childIndex len strategy with
      | .found k s => .found k s
      | .panic => .panic
      | .notFound =>
        if strategy = .bestFit then
          take_from node childIndex
        else
          .notFound

/-- Walks to the child stored in the branch at the given index (the child just
after that separator) and continues the search there; an out-of-bounds branch
index is an indexing panic in the original code. -/
def descend_into (branches : Branches) (childIndex len : Nat) (strategy : AllocationStrategy) : SearchOutcome :=
  match branches, childIndex with
  | .nil, _ => .panic
  | .cons _ child _, 0 => find_free_range_in child len strategy
  | .cons _ _ rest, i + 1 => descend_into rest i len strategy
end

/-- Model of `find_free_range` (src/btree.rs lines 25-45): an empty tree
reports not-found; the root-underflow bookkeeping only rearranges node ids and
does not change the returned value. -/
def find_free_range (root : Option BNode) (len : Nat) (strategy : AllocationStrategy) : SearchOutcome :=
  match root with
  | none => .notFound
  | some node => find_free_range_in node len strategy

/-- A memory page of src/lib.rs (`Page`), reduced to its length. -/
structure Page where
  len : Nat
deriving DecidableEq, Repr

/-- A free region record of src/lib.rs (`FreeRegion`). -/
structure FreeRegion where
  page : Nat
  offset : Nat
  previous_allocated_region : Nat
deriving DecidableEq, Repr

/-- The free-region store of src/lib.rs (`FreeRegions`): a slab of regions
paired with a same-size linked-list pointer.  Its `pop` and `push` methods are
unimplemented `panic!` stubs, so no code path ever mutates it. -/
structure FreeRegions where
  regions : List (FreeRegion × Nat)
deriving DecidableEq, Repr

/-- Fresh empty free-region store (`FreeRegions::new`). -/
def FreeRegions.new : FreeRegions := ⟨[]⟩

/-- An allocated region record of src/lib.rs (`AllocatedRegion`). -/
structure AllocatedRegion where
  offset : Nat
  len : Nat
deriving DecidableEq, Repr

/-- The sentinel index `std::usize::MAX` used by the linked lists of
src/lib.rs, at the 64-bit width. -/
def usizeMax : Nat := 2 ^ 64 - 1

/-- The allocated-region store of src/lib.rs (`AllocatedRegions`): a slab of
doubly linked records plus the index of the first record. -/
structure AllocatedRegions where
  regions : List (Nat × AllocatedRegion × Nat)
  first : Nat
deriving DecidableEq, Repr

/-- Fresh empty allocated-region store (`AllocatedRegions::new`). -/
def AllocatedRegions.new : AllocatedRegions := ⟨[], usizeMax⟩

/-- The free map of src/lib.rs (`FreeMap<T>` at `T = Nat`): the strategy, the
page slab, the two region stores and the size-keyed b-tree map (modelled by
its root, `none` when the tree is empty). -/
structure FreeMap where
  strategy : AllocationStrategy
  pages : List Page
  allocated_regions : AllocatedRegions
  free_regions : FreeRegions
  map : Option BNode

/-- Model of `FreeMap::new` (src/lib.rs lines 240-249): every component starts
empty. -/
def FreeMap.new (strategy : AllocationStrategy) : FreeMap :=
  ⟨strategy, [], AllocatedRegions.new, FreeRegions.new, none⟩

/-- Model of `FreeMap::new_page` (src/lib.rs lines 251-258): insert a page
record into the page slab and return its index.  Pages are never removed, so
the slab has no vacant slot and an insert appends at index `pages.len()`. -/
def FreeMap.new_page (m : FreeMap) (len : Nat) : Nat × FreeMap :=
  (m.pages.length, ⟨m.strategy, m.pages ++ [⟨len⟩], m.allocated_regions, m.free_regions, m.map⟩)

/-- Result of `FreeMap::allocate`: a granted `Allocation { page, offset, len }`,
the error `AllocationFailed`, or a panic in one of the unimplemented stubs. -/
inductive AllocateResult where
  | ok (page offset len : Nat)
  | allocationFailed
  | panic
deriving DecidableEq, Repr

/-- Model of `FreeMap::allocate` (src/lib.rs lines 261-289).  A zero-length
request trivially yields `Allocation { page: 0, offset: 0, len: 0 }` with no
mutation.  Otherwise the size-keyed map is searched with the configured
strategy (the search implemented in src/btree.rs): a failed search is
`AllocationFailed` with nothing mutated, and a successful search immediately
runs `free_regions.pop` through `map.update_at`, an unimplemented `panic!`
stub, so that arm panics before any field of the map is updated. -/
def FreeMap.allocate (m : FreeMap) (len : Nat) : AllocateResult × FreeMap :=
  if 0 < len then
    match find_free_range m.map len m.strategy with
    | .found _ _ => (.panic, m)
    | .panic => (.panic, m)
    | .notFound => (.allocationFailed, m)
  else
    (.ok 0 0 0, m)

/-- Completion behaviour of a `()`-returning operation: normal return or
panic. -/
inductive UnitOutcome where
  | ret
  | panic
deriving DecidableEq, Repr

/-- Model of `FreeMap::free` (src/lib.rs lines 291-294): the body is the
unimplemented stub `panic!`, for every receiver and both arguments. -/
def FreeMap.free (_m : FreeMap) (_offset _len : Nat) : UnitOutcome :=
  .panic

/-- Boolean test that a key list is strictly increasing, the order the b-tree
keeps its separator keys in. -/
def strictSorted : List Nat → Bool
  | [] => true
  | [_] => true
  | a :: b :: rest => decide (a < b) && strictSorted (b :: rest)

mutual
/-- Structural well-formedness guaranteed by the external b-tree crate (an
assumed-correct collaborator, spec §6): every internal node carries at least
one separator and its separator keys strictly increase. -/
def BNode.wf : BNode → Bool
  | .leaf _ => true
  | .internal first branches =>
    !branches.isNil && strictSorted branches.keys && first.wf && branches.wfAll

/-- Well-formedness of every child stored in a branch list. -/
def Branches.wfAll : Branches → Bool
  | .nil => true
  | .cons _ child rest => child.wf && rest.wfAll
end

/-- Well-formedness of a free map's size-keyed tree. -/
def FreeMap.wfMap (m : FreeMap) : Bool :=
  match m.map with
  | none => true
  | some t => t.wf

mutual
/-- Every bucket key present in a tree that holds at least one start offset,
separator items and leaf items alike: the lengths of the free regions the
size-keyed index knows about. -/
def BNode.bucketKeys : BNode → List Nat
  | .leaf items => (items.filter (fun it => !it.value.isEmpty)).map Item.key
  | .internal first branches => first.bucketKeys ++ branches.bucketKeysAll

/-- Bucket keys contributed by a branch list: each non-empty separator bucket
and the contents of each child. -/
def Branches.bucketKeysAll : Branches → List Nat
  | .nil => []
  | .cons item child rest =>
    (if item.value.isEmpty then [] else [item.key]) ++ child.bucketKeys ++ rest.bucketKeysAll
end

/-- Modelled from the spec: the smallest bucket key at least the requested
length present in the tree, the bucket §4.1 specifies FirstFit and BestFit to
draw from. -/
def smallestSufficientKey (t : BNode) (len : Nat) : Option Nat :=
  (t.bucketKeys.filter (fun k => len ≤ k)).min?

/-- Modelled from the spec: the largest bucket key present in the tree, the
bucket §4.1 specifies WorstFit to draw from. -/
def largestKey (t : BNode) : Option Nat :=
  t.bucketKeys.max?

example : find_free_range_in (.leaf [⟨5, [0]⟩]) 3 .worstFit = .panic := rfl

example :
    find_free_range_in
      (.internal (.leaf [⟨7, [50]⟩]) (.cons ⟨10, [100, 200]⟩ (.leaf [⟨12, [300]⟩]) .nil))
      7 .bestFit = .found 10 200 := rfl

theorem strictSorted_tail : ∀ {a : Nat} {l : List Nat},
    strictSorted (a :: l) = true → strictSorted l = true
  | _, [], _ => rfl
  | _, _ :: _, h => by
    rw [strictSorted, Bool.and_eq_true] at h
    exact h.2

theorem binary_search_min_lt_length : ∀ {keys : List Nat} {len i : Nat},
    binary_search_min keys len = some i → i < keys.length
  | [], _, _, h => by simp [binary_search_min] at h
  | k :: ks, len, i, h => by
    rw [binary_search_min] at h
    by_cases hk : k ≤ len
    · rw [if_pos hk] at h
      cases hrec : binary_search_min ks len with
      | some j =>
        rw [hrec] at h
        cases h
        have := binary_search_min_lt_length hrec
        simpa using Nat.succ_lt_succ this
      | none =>
        rw [hrec] at h
        cases h
        simp
    · rw [if_neg hk] at h
      cases h

theorem binary_search_min_le : ∀ {keys : List Nat} {len i : Nat},
    binary_search_min keys len = some i → keys.getD i 0 ≤ len
  | [], _, _, h => by simp [binary_search_min] at h
  | k :: ks, len, i, h => by
    rw [binary_search_min] at h
    by_cases hk : k ≤ len
    · rw [if_pos hk] at h
      cases hrec : binary_search_min ks len with
      | some j =>
        rw [hrec] at h
        cases h
        simpa using binary_search_min_le hrec
      | none =>
        rw [hrec] at h
        cases h
        simpa using hk
    · rw [if_neg hk] at h
      cases h

theorem binary_search_min_none_head {k : Nat} {ks : List Nat} {len : Nat}
    (h : binary_search_min (k :: ks) len = none) : len < k := by
  rw [binary_search_min] at h
  by_cases hk : k ≤ len
  · rw [if_pos hk] at h
    cases hrec : binary_search_min ks len <;> simp [hrec] at h
  · exact Nat.lt_of_not_le hk

theorem binary_search_min_succ_gt : ∀ {keys : List Nat} {len i : Nat},
    strictSorted keys = true → binary_search_min keys len = some i →
    i + 1 < keys.length → len < keys.getD (i + 1) 0
  | [], _, _, _, h, _ => by simp [binary_search_min] at h
  | k :: ks, len, i, hs, h, hlt => by
    rw [binary_search_min] at h
    by_cases hk : k ≤ len
    · rw [if_pos hk] at h
      cases hrec : binary_search_min ks len with
      | some j =>
        rw [hrec] at h
        cases h
        have hlt2 : j + 1 < ks.length := by simpa using Nat.lt_of_succ_lt_succ hlt
        simpa using binary_search_min_succ_gt (strictSorted_tail hs) hrec hlt2
      | none =>
        rw [hrec] at h
        cases h
        match ks, hrec with
        | k2 :: ks2, hrec => simpa using binary_search_min_none_head hrec
    · rw [if_neg hk] at h
      cases h

theorem Branches.keys_length : ∀ (bs : Branches), bs.keys.length = bs.length
  | .nil => rfl
  | .cons _ _ rest => by
    rw [Branches.keys, Branches.length, List.length_cons, Branches.keys_length rest]

theorem Branches.getItem_isSome : ∀ {bs : Branches} {i : Nat}, i < bs.length →
    ∃ it, bs.getItem i = some it
  | .nil, i, h => by simp [Branches.length] at h
  | .cons item _ _, 0, _ => ⟨item, rfl⟩
  | .cons _ _ rest, i + 1, h => by
    rw [Branches.getItem]
    exact Branches.getItem_isSome (Nat.lt_of_succ_lt_succ h)

theorem Branches.getItem_key : ∀ {bs : Branches} {i : Nat} {it : Item},
    bs.getItem i = some it → bs.keys.getD i 0 = it.key
  | .nil, i, _, h => by simp [Branches.getItem] at h
  | .cons item _ _, 0, _, h => by
    rw [Branches.getItem] at h
    cases h
    rfl
  | .cons _ _ rest, i + 1, _, h => by
    rw [Branches.getItem] at h
    rw [Branches.keys]
    simpa using Branches.getItem_key h

theorem Branches.isNil_false_pos {bs : Branches} (h : bs.isNil = false) : 0 < bs.length := by
  cases bs with
  | nil => simp [Branches.isNil] at h
  | cons item child rest => simp [Branches.length]

theorem take_from_internal_ne_notFound {first : BNode} {bs : Branches} {off : Nat} {it : Item}
    (h : bs.getItem off = some it) :
    take_from (.internal first bs) off ≠ .notFound := by
  rw [take_from, h]
  cases hlast : it.value.getLast? <;> simp [hlast]

theorem take_from_internal_found {first : BNode} {bs : Branches} {off k st : Nat}
    (h : take_from (.internal first bs) off = .found k st) :
    ∃ it, bs.getItem off = some it ∧ it.key = k := by
  rw [take_from] at h
  cases hit : bs.getItem off with
  | none => simp [hit] at h
  | some it =>
    simp only [hit] at h
    cases hlast : it.value.getLast? with
    | none => simp [hlast] at h
    | some s =>
      simp only [hlast] at h
      cases h
      exact ⟨it, rfl, rfl⟩

theorem fro_internal_ne_noneFound (first : BNode) (bs : Branches) (len : Nat)
    (s : AllocationStrategy) :
    free_range_offset_in (.internal first bs) len s ≠ .noneFound := by
  rw [free_range_offset_in.eq_def]
  cases s with
  | firstFit =>
    cases hb : binary_search_min bs.keys len with
    | some i => simp only [hb]; split; · simp
                split <;> simp
    | none => simp [hb]
  | worstFit => cases bs <;> simp
  | bestFit =>
    cases hb : binary_search_min bs.keys len with
    | some i => simp only [hb]; split <;> simp
    | none => simp [hb]

theorem fro_internal_take_lt {first : BNode} {bs : Branches} {len i : Nat}
    {s : AllocationStrategy} (hne : bs.isNil = false)
    (h : free_range_offset_in (.internal first bs) len s = .take i) : i < bs.length := by
  rw [free_range_offset_in.eq_def] at h
  cases s with
  | firstFit =>
    cases hb : binary_search_min bs.keys len with
    | some j =>
      simp only [hb] at h
      split at h
      · cases h
        exact bs.keys_length ▸ binary_search_min_lt_length hb
      · split at h
        · cases h
          next hlt => exact bs.keys_length ▸ hlt
        · cases h
    | none =>
      simp only [hb] at h
      cases h
      exact Branches.isNil_false_pos hne
  | worstFit =>
    cases bs with
    | nil => simp [Branches.isNil] at hne
    | cons item child rest => simp at h
  | bestFit =>
    cases hb : binary_search_min bs.keys len with
    | some j =>
      simp only [hb] at h
      split at h
      · cases h
        exact bs.keys_length ▸ binary_search_min_lt_length hb
      · cases h
    | none =>
      simp only [hb] at h
      cases h
      exact Branches.isNil_false_pos hne

theorem wf_internal_parts {first : BNode} {bs : Branches}
    (h : BNode.wf (.internal first bs) = true) :
    bs.isNil = false ∧ strictSorted bs.keys = true ∧ first.wf = true ∧ bs.wfAll = true := by
  rw [BNode.wf] at h
  simp only [Bool.and_eq_true, Bool.not_eq_true'] at h
  exact ⟨h.1.1.1, h.1.1.2, h.1.2, h.2⟩

theorem wfAll_cons_parts {it : Item} {child : BNode} {rest : Branches}
    (h : Branches.wfAll (.cons it child rest) = true) :
    child.wf = true ∧ rest.wfAll = true := by
  rw [Branches.wfAll] at h
  simpa [Bool.and_eq_true] using h

mutual
theorem find_ne_notFound : ∀ (node : BNode) (len : Nat) (s : AllocationStrategy),
    node.wf = true → find_free_range_in node len s ≠ .notFound
  | .leaf items, len, s, _ => by
    rw [find_free_range_in.eq_def]
    simp [free_range_offset_in]
  | .internal first bs, len, s, hwf => by
    obtain ⟨hne, hsort, hfst, hall⟩ := wf_internal_parts hwf
    rw [find_free_range_in.eq_def]
    cases hfro : free_range_offset_in (.internal first bs) len s with
    | noneFound => exact absurd hfro (fro_internal_ne_noneFound first bs len s)
    | panic => simp
    | take i =>
      obtain ⟨it, hit⟩ := Branches.getItem_isSome (fro_internal_take_lt hne hfro)
      simpa using take_from_internal_ne_notFound hit
    | descend ci =>
      simp only
      cases hd : descend_into bs ci len s with
      | found k st => simp
      | panic => simp
      | notFound => exact absurd hd (descend_ne_notFound bs ci len s hall)

theorem descend_ne_notFound : ∀ (bs : Branches) (i len : Nat) (s : AllocationStrategy),
    bs.wfAll = true → descend_into bs i len s ≠ .notFound
  | .nil, i, len, s, _ => by
    rw [descend_into.eq_def]
    simp
  | .cons it child rest, 0, len, s, h => by
    rw [descend_into.eq_def]
    exact find_ne_notFound child len s (wfAll_cons_parts h).1
  | .cons it child rest, i + 1, len, s, h => by
    rw [descend_into.eq_def]
    exact descend_ne_notFound rest i len s (wfAll_cons_parts h).2
end

theorem fro_take_ge {first : BNode} {bs : Branches} {len i : Nat} {s : AllocationStrategy}
    (hsort : strictSorted bs.keys = true) (hne : bs.isNil = false)
    (h : free_range_offset_in (.internal first bs) len s = .take i) :
    len ≤ bs.keys.getD i 0 := by
  rw [free_range_offset_in.eq_def] at h
  cases s with
  | firstFit =>
    cases hb : binary_search_min bs.keys len with
    | some j =>
      simp only [hb] at h
      split at h
      · cases h
        next heq => exact Nat.le_of_eq heq.symm
      · split at h
        · cases h
          next hlt => exact Nat.le_of_lt (binary_search_min_succ_gt hsort hb hlt)
        · cases h
    | none =>
      simp only [hb] at h
      cases h
      cases bs with
      | nil => simp [Branches.isNil] at hne
      | cons item child rest =>
        rw [Branches.keys] at hb
        exact Nat.le_of_lt (binary_search_min_none_head hb)
  | worstFit =>
    cases bs with
    | nil => simp [Branches.isNil] at hne
    | cons item child rest => simp at h
  | bestFit =>
    cases hb : binary_search_min bs.keys len with
    | some j =>
      simp only [hb] at h
      split at h
      · cases h
        next heq => exact Nat.le_of_eq heq.symm
      · cases h
    | none =>
      simp only [hb] at h
      cases h
      cases bs with
      | nil => simp [Branches.isNil] at hne
      | cons item child rest =>
        rw [Branches.keys] at hb
        exact Nat.le_of_lt (binary_search_min_none_head hb)

mutual
theorem worstFit_panics : ∀ (node : BNode) (len : Nat), node.wf = true →
    find_free_range_in node len .worstFit = .panic
  | .leaf items, len, _ => rfl
  | .internal first bs, len, hwf => by
    obtain ⟨hne, hsort, hfst, hall⟩ := wf_internal_parts hwf
    cases bs with
    | nil => simp [Branches.isNil] at hne
    | cons it child rest =>
      rw [find_free_range_in.eq_def]
      have hfro : free_range_offset_in (.internal first (.cons it child rest)) len .worstFit
          = .descend (Branches.length (.cons it child rest) - 1) := rfl
      rw [hfro]
      have hd := worstFit_descend_panics (.cons it child rest)
        (Branches.length (.cons it child rest) - 1) len hall
      simp [hd]

theorem worstFit_descend_panics : ∀ (bs : Branches) (i len : Nat), bs.wfAll = true →
    descend_into bs i len .worstFit = .panic
  | .nil, _, _, _ => rfl
  | .cons _ child _, 0, len, h =>
    worstFit_panics child len (wfAll_cons_parts h).1
  | .cons _ _ rest, i + 1, len, h =>
    worstFit_descend_panics rest i len (wfAll_cons_parts h).2
end

mutual
theorem find_found_ge : ∀ (node : BNode) (len : Nat) (s : AllocationStrategy) (k st : Nat),
    node.wf = true → find_free_range_in node len s = .found k st → len ≤ k
  | .leaf items, len, s, k, st, _, hfind => by
    rw [find_free_range_in.eq_def] at hfind
    simp [free_range_offset_in] at hfind
  | .internal first bs, len, s, k, st, hwf, hfind => by
    obtain ⟨hne, hsort, hfst, hall⟩ := wf_internal_parts hwf
    rw [find_free_range_in.eq_def] at hfind
    cases hfro : free_range_offset_in (.internal first bs) len s with
    | noneFound => exact absurd hfro (fro_internal_ne_noneFound first bs len s)
    | panic => rw [hfro] at hfind; simp at hfind
    | take i =>
      rw [hfro] at hfind
      obtain ⟨it, hit, hkey⟩ := take_from_internal_found hfind
      have hge := fro_take_ge hsort hne hfro
      rw [Branches.getItem_key hit, hkey] at hge
      exact hge
    | descend ci =>
      rw [hfro] at hfind
      have hred : (match descend_into bs ci len s with
          | SearchOutcome.found a b => SearchOutcome.found a b
          | SearchOutcome.panic => SearchOutcome.panic
          | SearchOutcome.notFound =>
            if s = AllocationStrategy.bestFit then take_from (BNode.internal first bs) ci
            else SearchOutcome.notFound) = SearchOutcome.found k st := hfind
      cases hd : descend_into bs ci len s with
      | found k2 st2 =>
        rw [hd] at hred
        have hinj : SearchOutcome.found k2 st2 = SearchOutcome.found k st := hred
        cases hinj
        exact descend_found_ge bs ci len s k st hall hd
      | panic =>
        rw [hd] at hred
        exact absurd hred (by simp)
      | notFound => exact absurd hd (descend_ne_notFound bs ci len s hall)

theorem descend_found_ge : ∀ (bs : Branches) (i len : Nat) (s : AllocationStrategy) (k st : Nat),
    bs.wfAll = true → descend_into bs i len s = .found k st → len ≤ k
  | .nil, i, len, s, k, st, _, hfind => by
    rw [descend_into.eq_def] at hfind
    simp at hfind
  | .cons _ child _, 0, len, s, k, st, h, hfind =>
    find_found_ge child len s k st (wfAll_cons_parts h).1 hfind
  | .cons _ _ rest, i + 1, len, s, k, st, h, hfind =>
    descend_found_ge rest i len s k st (wfAll_cons_parts h).2 hfind
end

/-- Example tree holding exactly one free region, of length 5 starting at 0. -/
def leafTree5 : BNode := .leaf [⟨5, [0]⟩]

/-- Example free map (WorstFit) whose size-keyed index holds one free region of
length 5. -/
def exampleMap5 : FreeMap :=
  ⟨.worstFit, [⟨100⟩], AllocatedRegions.new, FreeRegions.new, some leafTree5⟩

/-- Example tree holding exactly one free region, of length 1 starting at 0. -/
def leafTree1 : BNode := .leaf [⟨1, [0]⟩]

/-- Example free map (FirstFit) whose size-keyed index holds one free region of
length 1. -/
def exampleMap1 : FreeMap :=
  ⟨.firstFit, [⟨10⟩], AllocatedRegions.new, FreeRegions.new, some leafTree1⟩

/-- Example well-formed b-tree: the first child holds a length-7 bucket, the
single separator a length-10 bucket (two offsets), the right child a length-12
bucket. -/
def bestFitTree : BNode :=
  .internal (.leaf [⟨7, [50]⟩]) (.cons ⟨10, [100, 200]⟩ (.leaf [⟨12, [300]⟩]) .nil)

/-- Example well-formed b-tree with separators 5 and 20 and a length-10 bucket
stored in the subtree between them. -/
def firstFitTree : BNode :=
  .internal (.leaf [⟨2, [0]⟩])
    (.cons ⟨5, [10, 20]⟩ (.leaf [⟨10, [50]⟩])
      (.cons ⟨20, [100, 200]⟩ (.leaf [⟨30, [300]⟩]) .nil))

/-- C1: after `FreeMap::new(strategy)` followed by `new_page(total_len)` the
size-keyed map is still empty — `new_page` registers no free region — so the
immediately following `allocate(total_len)` returns `AllocationFailed` instead
of the offset 0 the claim promises (evaluation at the failing input
`total_len = 1`). -/
theorem c1_new_page_registers_no_free_region :
    ((FreeMap.new .firstFit).new_page 1).2.map = none ∧
    ((((FreeMap.new .firstFit).new_page 1).2).allocate 1).1 = .allocationFailed :=
  ⟨rfl, rfl⟩

/-- C2 counterexample: a well-formed map whose largest (indeed only) free
region has length 5 ≥ 3, yet `allocate 3` under WorstFit panics in the
unimplemented leaf case — it neither returns a region nor reports
`AllocationFailed`, refuting the claim that the returned region is the largest
and that allocation fails only when the largest region is smaller than the
request. -/
theorem c2_counterexample :
    BNode.wf leafTree5 = true ∧
    (exampleMap5.allocate 3).1 = .panic ∧
    (∀ page offset l, (exampleMap5.allocate 3).1 ≠ .ok page offset l) ∧
    largestKey leafTree5 = some 5 ∧ 3 ≤ 5 := by
  refine ⟨rfl, rfl, ?_, rfl, by decide⟩
  intro page offset l h
  exact AllocateResult.noConfusion h

/-- C2 (amended): under WorstFit the search of src/btree.rs always descends
toward the rightmost child, and the leaf case is an unimplemented stub, so on
every well-formed node the strategy search panics; it never returns a region
at all, for any request. -/
theorem c2_worstFit_always_panics (node : BNode) (len : Nat) (h : node.wf = true) :
    find_free_range_in node len .worstFit = .panic :=
  worstFit_panics node len h

/-- Witness for the amended C2 theorem at a concrete well-formed node. -/
theorem c2_worstFit_always_panics_witness :
    BNode.wf leafTree5 = true ∧ find_free_range_in leafTree5 3 .worstFit = .panic :=
  ⟨rfl, c2_worstFit_always_panics leafTree5 3 rfl⟩

/-- C3 counterexample: a well-formed tree holding a bucket of exact length 7,
yet the BestFit search for length 7 returns a region of length 10: every
separator key of the visited node exceeds the request, so the code takes
separator 0 without ever examining the first child, missing both the exact
match and the smaller sufficient bucket the claim promises. -/
theorem c3_counterexample :
    BNode.wf bestFitTree = true ∧
    find_free_range_in bestFitTree 7 .bestFit = .found 10 200 ∧
    smallestSufficientKey bestFitTree 7 = some 7 :=
  ⟨rfl, rfl, rfl⟩

/-- C3 (amended): when the BestFit search of src/btree.rs completes with a
region, that region's length is at least the requested length; but the
exact-match bias only inspects separator keys of visited nodes, so an exact or
smaller sufficient bucket stored in a skipped subtree (the first child, when
every separator key exceeds the request) can be missed. -/
theorem c3_bestFit_found_length_ge (node : BNode) (len k st : Nat) (h : node.wf = true)
    (hfind : find_free_range_in node len .bestFit = .found k st) : len ≤ k :=
  find_found_ge node len .bestFit k st h hfind

/-- Witness for the amended C3 theorem at a concrete well-formed tree. -/
theorem c3_bestFit_found_length_ge_witness :
    BNode.wf bestFitTree = true ∧
    find_free_range_in bestFitTree 7 .bestFit = .found 10 200 ∧ 7 ≤ 10 :=
  ⟨rfl, rfl, c3_bestFit_found_length_ge bestFitTree 7 10 200 rfl rfl⟩

/-- C4 counterexample: a well-formed tree whose smallest sufficient bucket key
for a request of 7 is 10 (stored in the subtree between separators 5 and 20),
yet the FirstFit search returns a region of length 20: after the predecessor
separator 5 fails the exact test, the code steps directly to the successor
separator without examining the subtree between them. -/
theorem c4_counterexample :
    BNode.wf firstFitTree = true ∧
    find_free_range_in firstFitTree 7 .firstFit = .found 20 200 ∧
    smallestSufficientKey firstFitTree 7 = some 10 :=
  ⟨rfl, rfl, rfl⟩

/-- C4 (amended): every region the FirstFit search of src/btree.rs returns has
length at least the requested length, but its length is the smallest
sufficient key only among the separator keys of the visited node — the
predecessor-successor step skips the subtree lying between the two separators,
which may hold a smaller sufficient bucket. -/
theorem c4_firstFit_found_length_ge (node : BNode) (len k st : Nat) (h : node.wf = true)
    (hfind : find_free_range_in node len .firstFit = .found k st) : len ≤ k :=
  find_found_ge node len .firstFit k st h hfind

/-- Witness for the amended C4 theorem at a concrete well-formed tree. -/
theorem c4_firstFit_found_length_ge_witness :
    BNode.wf firstFitTree = true ∧
    find_free_range_in firstFitTree 7 .firstFit = .found 20 200 ∧ 7 ≤ 20 :=
  ⟨rfl, rfl, c4_firstFit_found_length_ge firstFitTree 7 20 200 rfl rfl⟩

/-- C5 counterexample: a map holding a single free region of length 1 and a
request for length 2 — no free region of sufficient size exists, yet
`allocate 2` does not return `AllocationFailed`: it panics in the
unimplemented leaf case of the search, refuting the claimed equivalence. -/
theorem c5_counterexample :
    BNode.wf leafTree1 = true ∧
    (exampleMap1.allocate 2).1 = .panic ∧
    (exampleMap1.allocate 2).1 ≠ .allocationFailed ∧
    smallestSufficientKey leafTree1 2 = none := by
  refine ⟨rfl, rfl, ?_, rfl⟩
  intro h
  exact AllocateResult.noConfusion h

/-- C5 (amended): `allocate(len)` returns `AllocationFailed` exactly when
`len > 0` and the size-keyed map is empty — in which case no free region of
any size exists, so `AllocationFailed` does imply the absence of a sufficient
region; but with a non-empty well-formed index lacking a sufficient region the
call panics in the unimplemented code instead of reporting the error. -/
theorem c5_allocationFailed_iff_empty_map (m : FreeMap) (len : Nat) (h : m.wfMap = true) :
    (m.allocate len).1 = .allocationFailed ↔ (0 < len ∧ m.map = none) := by
  rw [FreeMap.allocate]
  by_cases hl : 0 < len
  · rw [if_pos hl]
    cases hm : m.map with
    | none =>
      simp only [find_free_range, hl, true_and]
    | some t =>
      have hwft : t.wf = true := by
        rw [FreeMap.wfMap, hm] at h
        exact h
      simp only [find_free_range]
      cases hf : find_free_range_in t len m.strategy with
      | found k s => simp
      | panic => simp
      | notFound => exact absurd hf (find_ne_notFound t len m.strategy hwft)
  · rw [if_neg hl]
    simp [hl]

/-- Witness for the amended C5 theorem at a concrete empty map. -/
theorem c5_allocationFailed_iff_empty_map_witness :
    ((FreeMap.new .worstFit).allocate 1).1 = .allocationFailed ↔
      (0 < 1 ∧ (FreeMap.new .worstFit).map = none) :=
  c5_allocationFailed_iff_empty_map (FreeMap.new .worstFit) 1 rfl

/-- Every call to `FreeMap::allocate` leaves the map record unchanged: the
error arm constructs `Err(AllocationFailed)` with no prior mutation, the
zero-length arm returns immediately, and the successful-search arm panics in
`free_regions.pop` before completing any update. -/
theorem allocate_snd (m : FreeMap) (len : Nat) : (m.allocate len).2 = m := by
  rw [FreeMap.allocate]
  split
  · cases hf : find_free_range m.map len m.strategy
    all_goals rfl
  · rfl

/-- C6: whenever `allocate(len)` returns `AllocationFailed` the free map is
left completely unmodified — strategy, pages, allocated regions, free regions
and the size-keyed map are all exactly as before the call. -/
theorem c6_failure_leaves_map_unchanged (m : FreeMap) (len : Nat)
    (_hfail : (m.allocate len).1 = .allocationFailed) :
    (m.allocate len).2 = m :=
  allocate_snd m len

/-- Witness for the C6 theorem at a concrete empty map. -/
theorem c6_failure_leaves_map_unchanged_witness :
    ((FreeMap.new .bestFit).allocate 1).1 = .allocationFailed ∧
    ((FreeMap.new .bestFit).allocate 1).2 = FreeMap.new .bestFit :=
  ⟨rfl, c6_failure_leaves_map_unchanged (FreeMap.new .bestFit) 1 rfl⟩

/-- C7: the round-trip cannot be performed, evaluated at the only kind of
input on which `allocate` succeeds (`len = 0` on a fresh map): the allocation
succeeds with offset 0 and leaves the map unchanged, but the immediately
following `free(0, 0)` is the unimplemented stub and panics instead of
returning, so no state is ever restored by `free`. -/
theorem c7_free_panics_after_successful_allocate :
    ((FreeMap.new .bestFit).allocate 0).1 = .ok 0 0 0 ∧
    ((FreeMap.new .bestFit).allocate 0).2 = FreeMap.new .bestFit ∧
    (FreeMap.new .bestFit).free 0 0 = .panic :=
  ⟨rfl, rfl, rfl⟩

/-- C8: a zero-length request succeeds trivially for every map state,
returning page 0, the zero offset and length zero, and mutating nothing. -/
theorem c8_zero_length_allocate (m : FreeMap) : m.allocate 0 = (.ok 0 0 0, m) := rfl

/-- C9: neither non-trivial mutating operation ever completes.  On any map
whose well-formed size-keyed index is non-empty, a positive allocation request
panics before returning (the search panics at the unimplemented leaf stub, or
the successful search runs into the unimplemented `FreeRegions::pop` stub),
and `free` panics unconditionally for all states and arguments. -/
theorem c9_unimplemented_stubs_panic :
    (∀ (m : FreeMap) (len : Nat), m.wfMap = true → m.map ≠ none → 0 < len →
      (m.allocate len).1 = .panic) ∧
    (∀ (m : FreeMap) (offset len : Nat), m.free offset len = .panic) := by
  constructor
  · intro m len hwf hne hl
    rw [FreeMap.allocate, if_pos hl]
    cases hm : m.map with
    | none => exact absurd hm hne
    | some t =>
      have hwft : t.wf = true := by
        rw [FreeMap.wfMap, hm] at hwf
        exact hwf
      simp only [find_free_range]
      cases hf : find_free_range_in t len m.strategy with
      | found k s => rfl
      | panic => rfl
      | notFound => exact absurd hf (find_ne_notFound t len m.strategy hwft)
  · intro m offset len
    rfl

/-- Witness for the C9 theorem at a concrete map with a non-empty index. -/
theorem c9_unimplemented_stubs_panic_witness :
    (exampleMap5.allocate 3).1 = .panic ∧ exampleMap5.free 0 0 = .panic := by
  constructor
  · exact c9_unimplemented_stubs_panic.1 exampleMap5 3 rfl
      (fun hcon => Option.noConfusion hcon) (by decide)
  · exact c9_unimplemented_stubs_panic.2 exampleMap5 0 0

/-- C10: `new_page` only appends a page record of the given length and returns
its index; the strategy, the size-keyed map, the free-region store and the
allocated-region store are untouched, so in particular the new page's address
space is not registered as a free region. -/
theorem c10_new_page_frame (m : FreeMap) (len : Nat) :
    (m.new_page len).1 = m.pages.length ∧
    (m.new_page len).2.pages = m.pages ++ [⟨len⟩] ∧
    (m.new_page len).2.strategy = m.strategy ∧
    (m.new_page len).2.map = m.map ∧
    (m.new_page len).2.free_regions = m.free_regions ∧
    (m.new_page len).2.allocated_regions = m.allocated_regions :=
  ⟨rfl, rfl, rfl, rfl, rfl, rfl⟩
